import Mathlib

/-!
Shallow embedding of the sqlite-tui server core (access resolution, discovery,
lock manager, query classification, identifier quoting, database manager and
CLI guards), translated from the Go sources, together with theorems settling
the specification claims about them.

Go maps are embedded as association lists (`List (String × β)`); the list
order stands for the map's iteration order, which Go leaves unspecified.
Machine integers that never overflow in the modelled paths are embedded as
`Nat`/`Int`.  The external `doublestar` glob library is not part of this
repository; it is abstracted as a `GlobMatcher` parameter (a pair of boolean
matching functions), which every theorem quantifies over or instantiates.
-/

/-- Association-list lookup, embedding Go map indexing `m[k]`. -/
def alookup {β : Type} (m : List (String × β)) (k : String) : Option β :=
  match m with
  | [] => none
  | (k2, v) :: rest => if k2 = k then some v else alookup rest k

/-- The keys of an embedded Go map. -/
def mapKeys {β : Type} (m : List (String × β)) : List String :=
  m.map Prod.fst

/-- Key uniqueness: the defining invariant of an embedded Go map. -/
abbrev keysNodup {β : Type} (m : List (String × β)) : Prop :=
  (mapKeys m).Nodup

/-! ## internal/access/level.go -/

/-- Access level enum from internal/access/level.go: None < ReadOnly <
ReadWrite < Admin (Go `Level int` with iota). -/
inductive Level where
  | none
  | readOnly
  | readWrite
  | admin
deriving DecidableEq, Repr

/-- The underlying Go integer of a `Level` (iota order). -/
def Level.toNat : Level → Nat
  | .none => 0
  | .readOnly => 1
  | .readWrite => 2
  | .admin => 3

/-- Embeds `Level.CanRead`: `l >= ReadOnly`. -/
def Level.canRead (l : Level) : Bool := decide (Level.readOnly.toNat ≤ l.toNat)

/-- Embeds `Level.CanWrite`: `l >= ReadWrite`. -/
def Level.canWrite (l : Level) : Bool := decide (Level.readWrite.toNat ≤ l.toNat)

/-- Embeds `Level.CanAdmin`: `l >= Admin`. -/
def Level.canAdmin (l : Level) : Bool := decide (Level.admin.toNat ≤ l.toNat)

/-- Embeds `Level.CanDownload`: `l >= ReadOnly`. -/
def Level.canDownload (l : Level) : Bool := decide (Level.readOnly.toNat ≤ l.toNat)

/-! ## internal/access context.go: UserInfo -/

/-- Embeds `access.UserInfo` from the source. -/
structure UserInfo where
  name : String
  isAdmin : Bool
  publicKeyFP : String
  isAnonymous : Bool
  anonymousName : String
  remoteAddr : String
deriving DecidableEq, Repr

/-- Embeds `(*UserInfo).DisplayName()`, including the Go nil-receiver case
(`none` stands for a nil `*UserInfo`). -/
def UserInfo.displayNameOpt : Option UserInfo → String
  | Option.none => "unknown"
  | Option.some u => if u.isAnonymous then u.anonymousName else u.name

/-! ## internal/access resolver.go -/

/-- Embeds `access.Rule`. -/
structure Rule where
  pattern : String
  level : Level
deriving DecidableEq, Repr

/-- Embeds `access.Resolver`.  Go maps become association lists / membership lists. -/
structure Resolver where
  anonymousAccess : Level
  publicRules : List Rule
  userRules : List (String × List Rule)
  admins : List String
deriving DecidableEq, Repr

/-- Abstraction of the external `doublestar` glob library: `globMatch` stands
for `doublestar.Match`, `pathMatch` for `doublestar.PathMatch`. -/
structure GlobMatcher where
  globMatch : String → String → Bool
  pathMatch : String → String → Bool

/-- A degenerate matcher used to instantiate theorems on concrete inputs in
which no glob rule is exercised (every match the code performs on those
inputs is an exact string comparison, decided before the glob is consulted). -/
def noGlob : GlobMatcher := ⟨fun _ _ => false, fun _ _ => false⟩

/-- Whitespace as recognised by Go `unicode.IsSpace` on Latin-1 input
(the inputs appearing in the claims are ASCII). -/
def goIsSpace (c : Char) : Bool :=
  c = ' ' || c = '\t' || c = '\n' || c = Char.ofNat 11 || c = Char.ofNat 12 ||
    c = '\r' || c = Char.ofNat 0x85 || c = Char.ofNat 0xA0

/-- Go `strings.TrimSpace` (both ends). -/
def goTrimSpace (s : String) : String :=
  String.mk (((s.data.dropWhile goIsSpace).reverse.dropWhile goIsSpace).reverse)

/-- Go `filepath.Base`. -/
def goBase (s : String) : String :=
  if s = "" then "." else
    let cs := s.data.reverse.dropWhile (fun c => c = '/')
    if cs = [] then "/" else String.mk ((cs.takeWhile (fun c => c ≠ '/')).reverse)

/-- Embeds `matchPattern` from resolver.go: exact alias, glob alias, exact path,
glob path / basename, then `PathMatch` for starred patterns. -/
def matchPattern (g : GlobMatcher) (pattern dbPath dbAlias : String) : Bool :=
  let pattern := goTrimSpace pattern
  let dbPath := goTrimSpace dbPath
  let dbAlias := goTrimSpace dbAlias
  if dbAlias ≠ "" && pattern = dbAlias then true
  else if dbAlias ≠ "" && g.globMatch pattern dbAlias then true
  else if dbPath ≠ "" && pattern = dbPath then true
  else if dbPath ≠ "" && (g.globMatch pattern dbPath || g.globMatch pattern (goBase dbPath)) then true
  else if pattern.contains '*' && g.pathMatch pattern dbPath then true
  else false

/-- Embeds `matchRules`: level of the first matching rule, `None` when no rule
matches. -/
def matchRules (g : GlobMatcher) (rules : List Rule) (dbPath dbAlias : String) : Level :=
  match rules.find? (fun rule => matchPattern g rule.pattern dbPath dbAlias) with
  | Option.some rule => rule.level
  | Option.none => Level.none

/-- Embeds `(*Resolver).Resolve(user, dbPath, dbAlias)`; `Option UserInfo` embeds the
possibly-nil `*UserInfo`. -/
def Resolver.resolve (g : GlobMatcher) (r : Resolver) (user : Option UserInfo)
    (dbPath dbAlias : String) : Level :=
  let isAdminFlag := match user with
    | Option.some u => u.isAdmin
    | Option.none => false
  let isListedAdmin := match user with
    | Option.some u => !u.isAnonymous && r.admins.contains u.name
    | Option.none => false
  if isAdminFlag then Level.admin
  else if isListedAdmin then Level.admin
  else
    let userLevel := match user with
      | Option.some u =>
          if !u.isAnonymous then
            match alookup r.userRules u.name with
            | Option.some rules => matchRules g rules dbPath dbAlias
            | Option.none => Level.none
          else Level.none
      | Option.none => Level.none
    if userLevel ≠ Level.none then userLevel
    else
      let pubLevel := matchRules g r.publicRules dbPath dbAlias
      if pubLevel ≠ Level.none then pubLevel
      else r.anonymousAccess

/-! ## internal/database discovery.go -/

/-- Embeds `database.DiscoveredDatabase` (the Go `Alias` field is called `dbAlias`
here because `alias` is a reserved word in this environment; the `Source`
back-pointer carries no data the claims touch and is omitted). -/
structure DiscoveredDatabase where
  path : String
  dbAlias : String
  description : String
  size : Int
  modTime : Int
deriving DecidableEq, Repr

/-- The `databases` field of `Discovery`: a Go map from absolute path to
database, embedded as an association list whose order is the map's
(unspecified) iteration order. -/
abbrev Snapshot : Type := List (String × DiscoveredDatabase)

/-- Every snapshot entry's value records its own key as `path`
(scan stores `newDatabases[db.Path] = db`). -/
abbrev wfSnapshot (m : Snapshot) : Prop :=
  ∀ e ∈ m, (Prod.snd e).path = Prod.fst e

/-- Embeds `(*Discovery).GetDatabase(pathOrAlias)`: exact path (map key) lookup
first, then a scan of the map's values for an alias match. -/
def Discovery.getDatabase (m : Snapshot) (pathOrAlias : String) : Option DiscoveredDatabase :=
  match alookup m pathOrAlias with
  | Option.some db => Option.some db
  | Option.none => (m.map Prod.snd).find? (fun db => db.dbAlias = pathOrAlias)

/-- Go map assignment `m[k] = v`: replace the entry when the key is present,
add it otherwise. -/
def mapInsert (m : Snapshot) (k : String) (v : DiscoveredDatabase) : Snapshot :=
  if (alookup m k).isSome then
    m.map (fun e => if Prod.fst e = k then (k, v) else e)
  else m ++ [(k, v)]

/-- The map-building loop of `(*Discovery).scan`: `newDatabases[db.Path] = db`
over every file the sources produced. -/
def buildSnapshot (found : List DiscoveredDatabase) : Snapshot :=
  found.foldl (fun m db => mapInsert m db.path db) []

/-- The `added` list computed by `(*Discovery).scan`: entries of the new
snapshot whose path is absent from the old one. -/
def computeAdded (old new : Snapshot) : List DiscoveredDatabase :=
  (new.filter (fun e => (alookup old (Prod.fst e)).isNone)).map Prod.snd

/-- The `removed` list computed by `(*Discovery).scan`: entries of the old
snapshot whose path is absent from the new one. -/
def computeRemoved (old new : Snapshot) : List DiscoveredDatabase :=
  (old.filter (fun e => (alookup new (Prod.fst e)).isNone)).map Prod.snd

/-! ## internal/database/lock.go -/

/-- Embeds `database.LockInfo`; `Since` (a `time.Time`) is embedded as a `Nat`
timestamp. -/
structure LockInfo where
  heldBy : String
  sessionID : String
  since : Nat
deriving DecidableEq, Repr

/-- Embeds `database.LockError`. -/
structure LockError where
  database : String
  heldBy : String
  since : Nat
deriving DecidableEq, Repr

/-- The `locks` map of `database.LockManager`. -/
abbrev LockState : Type := List (String × LockInfo)

/-- Embeds `(*LockManager).TryLock(dbPath, holder, sessionID)`; `now` embeds the
`time.Now()` read.  The first component is the returned error (`none` is
success), the second the lock map after the call. -/
def LockManager.tryLock (locks : LockState) (dbPath holder sessionID : String)
    (now : Nat) : Option LockError × LockState :=
  match alookup locks dbPath with
  | Option.some info =>
      if info.sessionID = sessionID then (Option.none, locks)
      else (Option.some ⟨dbPath, info.heldBy, info.since⟩, locks)
  | Option.none => (Option.none, (dbPath, ⟨holder, sessionID, now⟩) :: locks)

/-- Embeds `(*LockManager).Unlock(dbPath, sessionID)`: delete the entry when the
session matches, no-op otherwise. -/
def LockManager.unlock (locks : LockState) (dbPath sessionID : String) : LockState :=
  match alookup locks dbPath with
  | Option.some info =>
      if info.sessionID = sessionID then
        locks.filter (fun e => !(Prod.fst e = dbPath))
      else locks
  | Option.none => locks

/-! ## internal/database/manager.go: query classification -/

/-- Embeds `trimToUpper`: skip leading space/tab/LF/CR bytes, then take at most 20
bytes, uppercasing ASCII `a`–`z`.  Strings are embedded as `List Char` (the
source operates on bytes; all constants involved are ASCII). -/
def isQuerySpace (c : Char) : Bool :=
  c = ' ' || c = '\t' || c = '\n' || c = '\r'

/-- Byte-wise ASCII uppercasing (`c - 32` for `a`–`z`). -/
def upperAscii (c : Char) : Char :=
  if 'a' ≤ c && c ≤ 'z' then Char.ofNat (c.toNat - 32) else c

/-- Embeds `trimToUpper` from manager.go. -/
def trimToUpper (s : List Char) : List Char :=
  ((s.dropWhile isQuerySpace).take 20).map upperAscii

/-- Embeds `isReadOnlyQuery` from manager.go: the coarse read/write classifier. -/
def isReadOnlyQuery (query : List Char) : Bool :=
  let upper := trimToUpper query
  "SELECT".data.isPrefixOf upper || "PRAGMA".data.isPrefixOf upper ||
    "EXPLAIN".data.isPrefixOf upper || "WITH".data.isPrefixOf upper

/-! ## internal/database schema.go: identifier quoting -/

/-- Embeds `strings.ReplaceAll(name, quote, quotequote)`: double every embedded
double-quote character. -/
def doubleQuotes : List Char → List Char
  | [] => []
  | c :: rest => if c = '"' then '"' :: '"' :: doubleQuotes rest else c :: doubleQuotes rest

/-- Embeds `quoteIdentifier` from schema.go: wrap in double quotes, doubling embedded
double quotes. -/
def quoteIdentifier (name : List Char) : List Char :=
  '"' :: doubleQuotes name ++ ['"']

/-- String-level wrapper for `quoteIdentifier` (used where the source splices
the quoted identifier into a SQL string). -/
def quoteIdentifierStr (name : String) : String :=
  String.mk (quoteIdentifier name.data)

/-- Modelled from the spec: the inverse direction of the identifier
round-trip, "un-quoting the quoted form (stripping the outer quotes and
collapsing doubled quotes)".  The SQL engine's identifier parser is not part
of this repository; this is its specification-side description.  First, the
collapsing of doubled quotes. -/
def collapseQuotes : List Char → List Char
  | [] => []
  | [c] => [c]
  | c1 :: c2 :: rest =>
      if c1 = '"' ∧ c2 = '"' then '"' :: collapseQuotes rest
      else c1 :: collapseQuotes (c2 :: rest)
termination_by l => l.length

/-- Modelled from the spec: strip the outer double quotes and collapse
doubled quotes; `none` when the input is not of the quoted form. -/
def parseQuoted (s : List Char) : Option (List Char) :=
  match s with
  | c :: rest =>
      if c = '"' ∧ rest.getLast? = Option.some '"' then
        Option.some (collapseQuotes rest.dropLast)
      else Option.none
  | [] => Option.none

/-! ## internal/database: manager model

`Manager.ExecuteQuery` / `OpenConnection` interact with the SQLite engine;
the engine is out of scope and is abstracted as an `Engine` oracle.  Every
contact with it is recorded as an `EngineEvent`, so "the engine is never
touched" is the statement that the event trace is empty. -/

/-- Embeds `database.Connection` (handle and mutex omitted; the open mode is the
datum the claims touch). -/
structure Conn where
  path : String
  readOnly : Bool
deriving DecidableEq, Repr

/-- Abstract result of an engine execution (`database.QueryResult` without
the timing fields). -/
structure QueryResultM where
  rowsAffected : Int
  lastInsertID : Int
  isSelect : Bool
deriving DecidableEq, Repr

/-- A record of one contact with the SQLite engine. -/
inductive EngineEvent where
  | openConn (path : String) (readOnly : Bool)
  | runQuery (path : String) (sql : String)
deriving DecidableEq, Repr

/-- Oracle for the engine's behaviour: whether an open succeeds
(`some msg` is failure) and what a query execution returns. -/
structure Engine where
  openErr : String → Bool → Option String
  queryRes : String → String → Except String QueryResultM

/-- The mutable state of `database.Manager`: the discovery snapshot, the
resolver, the connection cache and the lock map. -/
structure ManagerState where
  databases : Snapshot
  resolver : Resolver
  connections : List (String × Conn)
  locks : LockState

/-- The error taxonomy surfaced by the manager (Go returns `fmt.Errorf`
values; the constructors separate the claims' error classes). -/
inductive QError where
  | notFound (pathOrAlias : String)
  | accessDenied (msg : String)
  | lockHeld (e : LockError)
  | engine (msg : String)
deriving DecidableEq, Repr

/-- Embeds `(*Manager).GetAccessLevel(user, pathOrAlias)`. -/
def Manager.getAccessLevel (g : GlobMatcher) (m : ManagerState)
    (user : Option UserInfo) (pathOrAlias : String) : Level :=
  match Discovery.getDatabase m.databases pathOrAlias with
  | Option.none => Level.none
  | Option.some db => Resolver.resolve g m.resolver user db.path db.dbAlias

/-- Embeds `(*Manager).OpenConnection(pathOrAlias, user)`: resolve the database,
require read access, return the cached connection or open a new one whose
read-only flag is the negation of the opener's write capability. -/
def Manager.openConnection (g : GlobMatcher) (eng : Engine) (m : ManagerState)
    (pathOrAlias : String) (user : Option UserInfo) :
    Except String Conn × ManagerState × List EngineEvent :=
  match Discovery.getDatabase m.databases pathOrAlias with
  | Option.none => (Except.error ("database not found: " ++ pathOrAlias), m, [])
  | Option.some db =>
      let level := Manager.getAccessLevel g m user pathOrAlias
      if !level.canRead then
        (Except.error ("access denied to database: " ++ pathOrAlias), m, [])
      else
        match alookup m.connections db.path with
        | Option.some conn => (Except.ok conn, m, [])
        | Option.none =>
            let ro := !level.canWrite
            match eng.openErr db.path ro with
            | Option.some msg =>
                (Except.error ("failed to open database: " ++ msg), m,
                  [EngineEvent.openConn db.path ro])
            | Option.none =>
                let conn : Conn := ⟨db.path, ro⟩
                (Except.ok conn,
                  { m with connections := (db.path, conn) :: m.connections },
                  [EngineEvent.openConn db.path ro])

/-- Embeds `(*Manager).ExecuteQuery(pathOrAlias, user, sessionID, query)`:
resolve, classify, authorize, open, lock for writes, execute, unlock. -/
def Manager.executeQuery (g : GlobMatcher) (eng : Engine) (m : ManagerState)
    (pathOrAlias : String) (user : Option UserInfo) (sessionID query : String)
    (now : Nat) : Except QError QueryResultM × ManagerState × List EngineEvent :=
  match Discovery.getDatabase m.databases pathOrAlias with
  | Option.none => (Except.error (QError.notFound pathOrAlias), m, [])
  | Option.some db =>
      let level := Manager.getAccessLevel g m user pathOrAlias
      if !isReadOnlyQuery query.data && !level.canWrite then
        (Except.error (QError.accessDenied "write permission required"), m, [])
      else
        match Manager.openConnection g eng m pathOrAlias user with
        | (Except.error msg, m2, evs) => (Except.error (QError.engine msg), m2, evs)
        | (Except.ok _, m2, evs) =>
            if !isReadOnlyQuery query.data then
              match LockManager.tryLock m2.locks db.path
                  (UserInfo.displayNameOpt user) sessionID now with
              | (Option.some lockErr, locks2) =>
                  (Except.error (QError.lockHeld lockErr),
                    { m2 with locks := locks2 }, evs)
              | (Option.none, locks2) =>
                  let m3 := { m2 with locks := locks2 }
                  let m4 := { m3 with
                    locks := LockManager.unlock m3.locks db.path sessionID }
                  match eng.queryRes db.path query with
                  | Except.error msg =>
                      (Except.error (QError.engine msg), m4,
                        evs ++ [EngineEvent.runQuery db.path query])
                  | Except.ok res =>
                      (Except.ok res, m4,
                        evs ++ [EngineEvent.runQuery db.path query])
            else
              match eng.queryRes db.path query with
              | Except.error msg =>
                  (Except.error (QError.engine msg), m2,
                    evs ++ [EngineEvent.runQuery db.path query])
              | Except.ok res =>
                  (Except.ok res, m2,
                    evs ++ [EngineEvent.runQuery db.path query])

/-- Embeds `database.DatabaseInfo`, the listing entry returned by `ListDatabases`. -/
structure DatabaseInfo where
  path : String
  dbAlias : String
  description : String
  size : Int
  modTime : Int
  accessLevel : Level
deriving DecidableEq, Repr

/-- Embeds `(*Manager).ListDatabases(user)`: the discovered databases whose resolved
level satisfies `CanRead`, each stamped with that level. -/
def Manager.listDatabases (g : GlobMatcher) (m : ManagerState)
    (user : Option UserInfo) : List DatabaseInfo :=
  (m.databases.map Prod.snd).filterMap (fun db =>
    let level := Resolver.resolve g m.resolver user db.path db.dbAlias
    if level.canRead then
      Option.some ⟨db.path, db.dbAlias, db.description, db.size, db.modTime, level⟩
    else Option.none)

/-! ## internal/cli: flag parsing and the delete / admin guards -/

/-- Embeds `(*CommandContext).GetPositionalArgs()`. -/
def getPositionalArgs (args : List String) : List String :=
  args.filter (fun a => !a.startsWith "-")

/-- Embeds `(*CommandContext).HasFlag(name)`. -/
def hasFlag (args : List String) (name : String) : Bool :=
  args.any (fun a => a = "--" ++ name || a = "-" ++ name)

/-- Embeds `(*CommandContext).GetFlag(name)`: value of the first `--name=` /
`-name=` argument, empty string when absent. -/
def getFlag (args : List String) (name : String) : String :=
  match args with
  | [] => ""
  | a :: rest =>
      if a.startsWith ("--" ++ name ++ "=") then a.drop ("--" ++ name ++ "=").length
      else if a.startsWith ("-" ++ name ++ "=") then a.drop ("-" ++ name ++ "=").length
      else getFlag rest name

/-- The SQL built by `database.Delete(conn, table, where)`. -/
def deleteSQL (table whereStr : String) : String :=
  "DELETE FROM " ++ quoteIdentifierStr table ++
    (if whereStr = "" then "" else " WHERE " ++ whereStr)

/-- Outcome of a CLI command: the exit code, the manager state afterwards and
the engine contacts that occurred. -/
structure CmdResult where
  exitCode : Nat
  state : ManagerState
  events : List EngineEvent

/-- Embeds `(*Handler).cmdDelete`: argument check, write-access check, `--confirm` /
`--force` guard, `--where` guard, then open and execute.  (Success-path
output formatting and audit logging touch neither the exit code nor the
engine and are omitted.) -/
def cmdDelete (g : GlobMatcher) (eng : Engine) (m : ManagerState)
    (user : Option UserInfo) (args : List String) : CmdResult :=
  let pos := getPositionalArgs args
  if pos.length < 2 then ⟨1, m, []⟩
  else
    let dbName := pos.getD 0 ""
    let tableName := pos.getD 1 ""
    if !(Manager.getAccessLevel g m user dbName).canWrite then ⟨1, m, []⟩
    else if !hasFlag args "confirm" && !hasFlag args "force" then ⟨1, m, []⟩
    else if getFlag args "where" = "" then ⟨1, m, []⟩
    else
      match Manager.openConnection g eng m dbName user with
      | (Except.error _, m2, evs) => ⟨1, m2, evs⟩
      | (Except.ok conn, m2, evs) =>
          let sql := deleteSQL tableName (getFlag args "where")
          match eng.queryRes conn.path sql with
          | Except.error _ => ⟨1, m2, evs ++ [EngineEvent.runQuery conn.path sql]⟩
          | Except.ok _ => ⟨0, m2, evs ++ [EngineEvent.runQuery conn.path sql]⟩

/-- Embeds `(*CommandContext).RequireAdmin()`: `c.User != nil && c.User.IsAdmin`. -/
def requireAdminOk (user : Option UserInfo) : Bool :=
  match user with
  | Option.none => false
  | Option.some u => u.isAdmin

/-- Outcome of an admin-gated command: exit code and whether the body past
the `RequireAdmin` guard ran. -/
structure AdminCmdResult where
  exitCode : Nat
  bodyRan : Bool
deriving DecidableEq, Repr

/-- The guard shared by the four admin commands: run the body only when
`RequireAdmin` passes, otherwise exit 1. -/
def runAdminGate (user : Option UserInfo) (body : AdminCmdResult) : AdminCmdResult :=
  if requireAdminOk user then body else ⟨1, false⟩

/-- Embeds `(*Handler).cmdSessions`: begins with the `RequireAdmin` guard; the body
(session listing) is abstracted as `body`. -/
def cmdSessions (user : Option UserInfo) (body : AdminCmdResult) : AdminCmdResult :=
  runAdminGate user body

/-- Embeds `(*Handler).cmdHistory`: begins with the `RequireAdmin` guard. -/
def cmdHistory (user : Option UserInfo) (body : AdminCmdResult) : AdminCmdResult :=
  runAdminGate user body

/-- Embeds `(*Handler).cmdAudit`: begins with the `RequireAdmin` guard. -/
def cmdAudit (user : Option UserInfo) (body : AdminCmdResult) : AdminCmdResult :=
  runAdminGate user body

/-- Embeds `(*Handler).cmdReloadConfig`: begins with the `RequireAdmin` guard. -/
def cmdReloadConfig (user : Option UserInfo) (body : AdminCmdResult) : AdminCmdResult :=
  runAdminGate user body

example : Level.admin.canWrite = true := by decide
example : Level.readOnly.canWrite = false := by decide
example : isReadOnlyQuery "  select * from t".data = true := by decide
example : isReadOnlyQuery "\n\tWITH x AS (SELECT 1) INSERT INTO t SELECT * FROM x".data = true := by decide
example : isReadOnlyQuery "DELETE FROM t".data = false := by decide
example : isReadOnlyQuery "".data = false := by decide

/-! ## Shared lemmas about embedded Go maps -/

theorem alookup_eq_none {β : Type} (m : List (String × β)) (k : String) :
    alookup m k = Option.none ↔ k ∉ mapKeys m := by
  induction m with
  | nil => simp [alookup, mapKeys]
  | cons e rest ih =>
      obtain ⟨k2, v⟩ := e
      by_cases h : k2 = k
      · subst h
        simp [alookup, mapKeys]
      · simp [alookup, h, mapKeys, ih, not_or, Ne.symm h]

theorem alookup_some_mem {β : Type} (m : List (String × β)) (k : String) (v : β)
    (h : alookup m k = Option.some v) : (k, v) ∈ m := by
  induction m with
  | nil => simp [alookup] at h
  | cons e rest ih =>
      obtain ⟨k2, v2⟩ := e
      by_cases hk : k2 = k
      · subst hk
        simp [alookup] at h
        simp [h]
      · simp only [alookup, if_neg hk] at h
        simp [ih h]

theorem mem_alookup_of_nodup {β : Type} (m : List (String × β)) (k : String) (v : β)
    (hn : keysNodup m) (h : (k, v) ∈ m) : alookup m k = Option.some v := by
  induction m with
  | nil => simp at h
  | cons e rest ih =>
      obtain ⟨k2, v2⟩ := e
      have hn' : k2 ∉ mapKeys rest ∧ keysNodup rest := by
        simpa [keysNodup, mapKeys, List.nodup_cons] using hn
      rcases List.mem_cons.1 h with h1 | h2
      · cases h1
        simp [alookup]
      · have hk : k2 ≠ k := by
          intro hkk
          subst hkk
          exact hn'.1 (by simpa [mapKeys] using List.mem_map_of_mem Prod.fst h2)
        simp only [alookup, if_neg hk]
        exact ih hn'.2 h2

theorem exists_alookup_of_mem_keys {β : Type} (m : List (String × β)) (k : String)
    (h : k ∈ mapKeys m) : ∃ v, alookup m k = Option.some v := by
  induction m with
  | nil => simp [mapKeys] at h
  | cons e rest ih =>
      obtain ⟨k2, v2⟩ := e
      by_cases hk : k2 = k
      · exact ⟨v2, by simp [alookup, hk]⟩
      · have hm : k ∈ k2 :: mapKeys rest := h
        have h' : k ∈ mapKeys rest := by
          rcases List.mem_cons.1 hm with h1 | h2
          · exact absurd h1.symm hk
          · exact h2
        obtain ⟨v, hv⟩ := ih h'
        exact ⟨v, by simp [alookup, hk, hv]⟩

/-! ## C6: the read/write classifier -/

/-- The classification the specification describes: after dropping leading
whitespace and uppercasing (with no 20-byte window), the query starts with
`SELECT`, `PRAGMA`, `EXPLAIN` or `WITH`. -/
def classifyReadOnlySpec (q : List Char) : Bool :=
  let upper := (q.dropWhile isQuerySpace).map upperAscii
  "SELECT".data.isPrefixOf upper || "PRAGMA".data.isPrefixOf upper ||
    "EXPLAIN".data.isPrefixOf upper || "WITH".data.isPrefixOf upper

theorem isPrefixOf_take (p : List Char) :
    ∀ (n : Nat) (l : List Char), p.length ≤ n →
      p.isPrefixOf (l.take n) = p.isPrefixOf l := by
  induction p with
  | nil => intro n l _; simp [List.isPrefixOf]
  | cons a as ih =>
      intro n l hlen
      cases n with
      | zero => simp at hlen
      | succ n =>
          cases l with
          | nil => simp
          | cons b bs =>
              simp only [List.take, List.isPrefixOf]
              rw [ih n bs (by simpa using hlen)]

/-- C6: for every SQL string, the classifier returns read-only exactly when
the string, after trimming leading whitespace and uppercasing, begins with
`SELECT`, `PRAGMA`, `EXPLAIN` or `WITH`; every other string is classified as
writing. -/
theorem isReadOnlyQuery_correct (q : List Char) :
    isReadOnlyQuery q = classifyReadOnlySpec q := by
  simp only [isReadOnlyQuery, classifyReadOnlySpec, trimToUpper, List.map_take]
  rw [isPrefixOf_take _ 20 _ (by decide), isPrefixOf_take _ 20 _ (by decide),
    isPrefixOf_take _ 20 _ (by decide), isPrefixOf_take _ 20 _ (by decide)]

/-! ## C7: identifier quoting round-trip -/

theorem doubleQuotes_cons_quote (rest : List Char) :
    doubleQuotes ('"' :: rest) = '"' :: '"' :: doubleQuotes rest := by
  simp [doubleQuotes]

theorem doubleQuotes_cons_ne (c : Char) (rest : List Char) (h : c ≠ '"') :
    doubleQuotes (c :: rest) = c :: doubleQuotes rest := by
  simp [doubleQuotes, h]

theorem collapseQuotes_two_quotes (rest : List Char) :
    collapseQuotes ('"' :: '"' :: rest) = '"' :: collapseQuotes rest := by
  rw [collapseQuotes.eq_def]
  simp

theorem collapseQuotes_cons_ne (c : Char) (l : List Char) (h : c ≠ '"') :
    collapseQuotes (c :: l) = c :: collapseQuotes l := by
  cases l with
  | nil =>
      rw [collapseQuotes.eq_def]
      rw [collapseQuotes.eq_def]
  | cons c2 rest =>
      rw [collapseQuotes.eq_def]
      simp [h]

theorem collapseQuotes_doubleQuotes (n : List Char) :
    collapseQuotes (doubleQuotes n) = n := by
  induction n with
  | nil =>
      rw [show doubleQuotes [] = [] from rfl]
      rw [collapseQuotes.eq_def]
  | cons c rest ih =>
      by_cases h : c = '"'
      · subst h
        rw [doubleQuotes_cons_quote, collapseQuotes_two_quotes, ih]
      · rw [doubleQuotes_cons_ne c rest h, collapseQuotes_cons_ne c _ h, ih]

/-- C7: quoting an identifier (wrapping in double quotes, doubling embedded
double quotes) is losslessly inverted by stripping the outer quotes and
collapsing doubled quotes, for every identifier without a NUL byte. -/
theorem quoteIdentifier_roundtrip (n : List Char) (_h : Char.ofNat 0 ∉ n) :
    parseQuoted (quoteIdentifier n) = Option.some n := by
  show parseQuoted ('"' :: (doubleQuotes n ++ ['"'])) = Option.some n
  rw [show parseQuoted ('"' :: (doubleQuotes n ++ ['"'])) =
      if ('"' : Char) = '"' ∧ (doubleQuotes n ++ ['"']).getLast? = Option.some '"' then
        Option.some (collapseQuotes (doubleQuotes n ++ ['"']).dropLast)
      else Option.none from rfl]
  rw [if_pos ⟨rfl, by simp⟩]
  rw [List.dropLast_concat, collapseQuotes_doubleQuotes]

/-- Witness for C7 at the concrete identifier `ab"c`. -/
theorem quoteIdentifier_roundtrip_witness :
    Char.ofNat 0 ∉ "ab\"c".data ∧
      parseQuoted (quoteIdentifier "ab\"c".data) = Option.some "ab\"c".data :=
  ⟨by decide, quoteIdentifier_roundtrip "ab\"c".data (by decide)⟩

/-! ## C4: the lock manager -/

/-- C4: `TryLock` is a re-entrant no-op for the holding session, returns a
`LockHeld` error carrying the holder and acquisition time for a different
session, installs exactly one entry when the path is free and never
duplicates a path key. -/
theorem tryLock_spec (locks : LockState) (path holder sid : String) (now : Nat) :
    (∀ info, alookup locks path = Option.some info → info.sessionID = sid →
      LockManager.tryLock locks path holder sid now = (Option.none, locks)) ∧
    (∀ info, alookup locks path = Option.some info → info.sessionID ≠ sid →
      LockManager.tryLock locks path holder sid now =
        (Option.some ⟨path, info.heldBy, info.since⟩, locks)) ∧
    (alookup locks path = Option.none →
      LockManager.tryLock locks path holder sid now =
        (Option.none, (path, ⟨holder, sid, now⟩) :: locks)) ∧
    (keysNodup locks → keysNodup (LockManager.tryLock locks path holder sid now).2) := by
  refine ⟨?_, ?_, ?_, ?_⟩
  · intro info hl hs
    simp [LockManager.tryLock, hl, hs]
  · intro info hl hs
    simp [LockManager.tryLock, hl, hs]
  · intro hl
    simp [LockManager.tryLock, hl]
  · intro hn
    unfold LockManager.tryLock
    cases hl : alookup locks path with
    | some info =>
        by_cases hs : info.sessionID = sid <;> simp [hs, hn]
    | none =>
        have hnotin : path ∉ mapKeys locks := (alookup_eq_none locks path).1 hl
        simp only [hl]
        exact List.nodup_cons.2 ⟨hnotin, hn⟩

/-- Witness for C4: a held lock is re-entrant for session `s1`, denied with
holder data for session `s2`, and a free path installs one entry. -/
theorem tryLock_spec_witness :
    LockManager.tryLock [("/a.db", ⟨"alice", "s1", 5⟩)] "/a.db" "bob" "s1" 9 =
        (Option.none, [("/a.db", ⟨"alice", "s1", 5⟩)]) ∧
      LockManager.tryLock [("/a.db", ⟨"alice", "s1", 5⟩)] "/a.db" "bob" "s2" 9 =
        (Option.some ⟨"/a.db", "alice", 5⟩, [("/a.db", ⟨"alice", "s1", 5⟩)]) ∧
      LockManager.tryLock [("/a.db", ⟨"alice", "s1", 5⟩)] "/b.db" "bob" "s2" 9 =
        (Option.none, [("/b.db", ⟨"bob", "s2", 9⟩), ("/a.db", ⟨"alice", "s1", 5⟩)]) ∧
      keysNodup (LockManager.tryLock [("/a.db", ⟨"alice", "s1", 5⟩)] "/b.db" "bob" "s2" 9).2 :=
  ⟨(tryLock_spec [("/a.db", ⟨"alice", "s1", 5⟩)] "/a.db" "bob" "s1" 9).1
      ⟨"alice", "s1", 5⟩ rfl rfl,
    (tryLock_spec [("/a.db", ⟨"alice", "s1", 5⟩)] "/a.db" "bob" "s2" 9).2.1
      ⟨"alice", "s1", 5⟩ rfl (by decide),
    (tryLock_spec [("/a.db", ⟨"alice", "s1", 5⟩)] "/b.db" "bob" "s2" 9).2.2.1 rfl,
    (tryLock_spec [("/a.db", ⟨"alice", "s1", 5⟩)] "/b.db" "bob" "s2" 9).2.2.2
      (by simp [keysNodup, mapKeys])⟩

/-! ## C2 / C10: admin resolution -/

/-- Shared lemma: a non-anonymous user with the admin flag or an
`admin_names` entry resolves to `Admin` on every database, before any rule
is consulted. -/
theorem resolve_admin (g : GlobMatcher) (r : Resolver) (u : UserInfo)
    (dbPath dbAlias : String) (hanon : u.isAnonymous = false)
    (h : u.isAdmin = true ∨ r.admins.contains u.name = true) :
    Resolver.resolve g r (Option.some u) dbPath dbAlias = Level.admin := by
  by_cases hA : u.isAdmin
  · simp [Resolver.resolve, hA]
  · rcases h with h | h
    · exact absurd h hA
    · have hmem : u.name ∈ r.admins := by simpa using h
      simp [Resolver.resolve, hA, hanon, hmem]

/-- C2: a non-anonymous user carrying the admin flag or listed in
`admin_names` resolves to `Admin` on every (path, alias) pair, and
`ListDatabases` returns every discovered database stamped with `Admin`. -/
theorem admin_resolve_and_list (g : GlobMatcher) (m : ManagerState) (u : UserInfo)
    (hanon : u.isAnonymous = false)
    (h : u.isAdmin = true ∨ m.resolver.admins.contains u.name = true) :
    (∀ dbPath dbAlias,
      Resolver.resolve g m.resolver (Option.some u) dbPath dbAlias = Level.admin) ∧
    Manager.listDatabases g m (Option.some u) =
      (m.databases.map Prod.snd).map (fun db =>
        ⟨db.path, db.dbAlias, db.description, db.size, db.modTime, Level.admin⟩) := by
  refine ⟨fun dbPath dbAlias => resolve_admin g m.resolver u dbPath dbAlias hanon h, ?_⟩
  unfold Manager.listDatabases
  rw [List.filterMap_eq_map_iff_forall_eq_some.2 ?_]
  intro db _
  rw [resolve_admin g m.resolver u db.path db.dbAlias hanon h]
  rfl

/-- Witness for C2: an `is_admin` user with no rules sees the two discovered
databases at level `Admin`. -/
theorem admin_resolve_and_list_witness :
    (UserInfo.mk "root" true "" false "" "").isAnonymous = false ∧
      ((UserInfo.mk "root" true "" false "" "").isAdmin = true ∨
        (Resolver.mk Level.none [] [] []).admins.contains "root" = true) ∧
      Manager.listDatabases noGlob
          ⟨[("/d/a.db", ⟨"/d/a.db", "a", "", 1, 2⟩), ("/d/b.db", ⟨"/d/b.db", "b", "", 3, 4⟩)],
            ⟨Level.none, [], [], []⟩, [], []⟩
          (Option.some (UserInfo.mk "root" true "" false "" "")) =
        [⟨"/d/a.db", "a", "", 1, 2, Level.admin⟩, ⟨"/d/b.db", "b", "", 3, 4, Level.admin⟩] := by
  refine ⟨rfl, Or.inl rfl, ?_⟩
  rw [(admin_resolve_and_list noGlob
    ⟨[("/d/a.db", ⟨"/d/a.db", "a", "", 1, 2⟩), ("/d/b.db", ⟨"/d/b.db", "b", "", 3, 4⟩)],
      ⟨Level.none, [], [], []⟩, [], []⟩
    (UserInfo.mk "root" true "" false "" "") rfl (Or.inl rfl)).2]
  rfl

/-! ## C3: an explicit `None` public rule does not deny -/

/-- The resolver built by the repository's own test
`TestResolver_AnonymousAccess`: anonymous default `ReadOnly` and a public
rule `protected → None` meant as an explicit deny. -/
def c3Resolver : Resolver := ⟨Level.readOnly, [⟨"protected", Level.none⟩], [], []⟩

/-- The anonymous user of that test. -/
def c3AnonUser : UserInfo := ⟨"anon", false, "", true, "", ""⟩

/-- C3 (counter-evaluation): on the database with alias `protected`, whose
public rule is an explicit `None`, the code resolves the anonymous user (and
the nil user) to the anonymous default `ReadOnly`, not to `None`: the
matched `None` rule is treated as "no match" and the fallback is taken.
The repository's own test expects `None` here. -/
theorem c3_resolve_eval :
    Resolver.resolve noGlob c3Resolver (Option.some c3AnonUser)
        "/data/protected.db" "protected" = Level.readOnly ∧
      Resolver.resolve noGlob c3Resolver Option.none
        "/data/protected.db" "protected" = Level.readOnly := by
  refine ⟨?_, ?_⟩ <;> rfl

/-! ## C10: admin commands are gated on the flag alone -/

/-- C10: with `is_admin` false, each of `sessions`, `history`, `audit` and
`reload-config` exits with code 1 without running its body — even when the
user's name is in `admin_names`, which makes the resolver grant `Admin` on
every database. -/
theorem admin_commands_flag_only (u : UserInfo) (b1 b2 b3 b4 : AdminCmdResult)
    (g : GlobMatcher) (r : Resolver) (dbPath dbAlias : String)
    (h : u.isAdmin = false) :
    cmdSessions (Option.some u) b1 = ⟨1, false⟩ ∧
    cmdHistory (Option.some u) b2 = ⟨1, false⟩ ∧
    cmdAudit (Option.some u) b3 = ⟨1, false⟩ ∧
    cmdReloadConfig (Option.some u) b4 = ⟨1, false⟩ ∧
    (u.isAnonymous = false → r.admins.contains u.name = true →
      Resolver.resolve g r (Option.some u) dbPath dbAlias = Level.admin) := by
  refine ⟨?_, ?_, ?_, ?_, fun hanon hlist => resolve_admin g r u dbPath dbAlias hanon (Or.inr hlist)⟩ <;>
    simp [cmdSessions, cmdHistory, cmdAudit, cmdReloadConfig, runAdminGate, requireAdminOk, h]

/-- Witness for C10: the user `eve` is in `admin_names` (so resolves to
`Admin` on the database `a`) yet every admin command exits 1. -/
theorem admin_commands_flag_only_witness :
    (UserInfo.mk "eve" false "" false "" "").isAdmin = false ∧
      cmdSessions (Option.some (UserInfo.mk "eve" false "" false "" "")) ⟨0, true⟩ = ⟨1, false⟩ ∧
      cmdHistory (Option.some (UserInfo.mk "eve" false "" false "" "")) ⟨0, true⟩ = ⟨1, false⟩ ∧
      cmdAudit (Option.some (UserInfo.mk "eve" false "" false "" "")) ⟨0, true⟩ = ⟨1, false⟩ ∧
      cmdReloadConfig (Option.some (UserInfo.mk "eve" false "" false "" "")) ⟨0, true⟩ = ⟨1, false⟩ ∧
      Resolver.resolve noGlob ⟨Level.none, [], [], ["eve"]⟩
        (Option.some (UserInfo.mk "eve" false "" false "" "")) "/d/a.db" "a" = Level.admin := by
  have h := admin_commands_flag_only (UserInfo.mk "eve" false "" false "" "")
    ⟨0, true⟩ ⟨0, true⟩ ⟨0, true⟩ ⟨0, true⟩ noGlob ⟨Level.none, [], [], ["eve"]⟩
    "/d/a.db" "a" rfl
  exact ⟨rfl, h.1, h.2.1, h.2.2.1, h.2.2.2.1, h.2.2.2.2 rfl rfl⟩

/-! ## C1: execute_query refuses before touching the engine -/

/-- C1: `ExecuteQuery` returns `AccessDenied` for a writing statement
without write capability, and `NotFound` when no discovered database
matches the path-or-alias; in both cases the manager state (and hence the
connection cache) is unchanged and no engine contact occurs. -/
theorem executeQuery_guards :
    (∀ (g : GlobMatcher) (eng : Engine) (m : ManagerState) (poa : String)
        (user : Option UserInfo) (sid q : String) (now : Nat) (db : DiscoveredDatabase),
      Discovery.getDatabase m.databases poa = Option.some db →
      isReadOnlyQuery q.data = false →
      (Manager.getAccessLevel g m user poa).canWrite = false →
      Manager.executeQuery g eng m poa user sid q now =
        (Except.error (QError.accessDenied "write permission required"), m, [])) ∧
    (∀ (g : GlobMatcher) (eng : Engine) (m : ManagerState) (poa : String)
        (user : Option UserInfo) (sid q : String) (now : Nat),
      Discovery.getDatabase m.databases poa = Option.none →
      Manager.executeQuery g eng m poa user sid q now =
        (Except.error (QError.notFound poa), m, [])) := by
  constructor
  · intro g eng m poa user sid q now db hdb hw hl
    unfold Manager.executeQuery
    rw [hdb]
    simp [hw, hl]
  · intro g eng m poa user sid q now hdb
    unfold Manager.executeQuery
    rw [hdb]

/-- Witness for C1: a read-only user issuing `DELETE FROM t` is denied with
no engine contact, and an unknown alias yields `NotFound`. -/
theorem executeQuery_guards_witness :
    Discovery.getDatabase [("/d/a.db", ⟨"/d/a.db", "a", "", 1, 2⟩)] "a" =
        Option.some ⟨"/d/a.db", "a", "", 1, 2⟩ ∧
      isReadOnlyQuery "DELETE FROM t".data = false ∧
      (Manager.getAccessLevel noGlob
        ⟨[("/d/a.db", ⟨"/d/a.db", "a", "", 1, 2⟩)], ⟨Level.readOnly, [], [], []⟩, [], []⟩
        Option.none "a").canWrite = false ∧
      Manager.executeQuery noGlob ⟨fun _ _ => Option.none, fun _ _ => Except.ok ⟨0, 0, false⟩⟩
          ⟨[("/d/a.db", ⟨"/d/a.db", "a", "", 1, 2⟩)], ⟨Level.readOnly, [], [], []⟩, [], []⟩
          "a" Option.none "s1" "DELETE FROM t" 7 =
        (Except.error (QError.accessDenied "write permission required"),
          ⟨[("/d/a.db", ⟨"/d/a.db", "a", "", 1, 2⟩)], ⟨Level.readOnly, [], [], []⟩, [], []⟩, []) ∧
      Discovery.getDatabase [("/d/a.db", ⟨"/d/a.db", "a", "", 1, 2⟩)] "nope" = Option.none ∧
      Manager.executeQuery noGlob ⟨fun _ _ => Option.none, fun _ _ => Except.ok ⟨0, 0, false⟩⟩
          ⟨[("/d/a.db", ⟨"/d/a.db", "a", "", 1, 2⟩)], ⟨Level.readOnly, [], [], []⟩, [], []⟩
          "nope" Option.none "s1" "SELECT 1" 7 =
        (Except.error (QError.notFound "nope"),
          ⟨[("/d/a.db", ⟨"/d/a.db", "a", "", 1, 2⟩)], ⟨Level.readOnly, [], [], []⟩, [], []⟩, []) :=
  ⟨rfl, by decide, rfl,
    executeQuery_guards.1 noGlob ⟨fun _ _ => Option.none, fun _ _ => Except.ok ⟨0, 0, false⟩⟩
      ⟨[("/d/a.db", ⟨"/d/a.db", "a", "", 1, 2⟩)], ⟨Level.readOnly, [], [], []⟩, [], []⟩
      "a" Option.none "s1" "DELETE FROM t" 7 ⟨"/d/a.db", "a", "", 1, 2⟩ rfl (by decide) rfl,
    rfl,
    executeQuery_guards.2 noGlob ⟨fun _ _ => Option.none, fun _ _ => Except.ok ⟨0, 0, false⟩⟩
      ⟨[("/d/a.db", ⟨"/d/a.db", "a", "", 1, 2⟩)], ⟨Level.readOnly, [], [], []⟩, [], []⟩
      "nope" Option.none "s1" "SELECT 1" 7 rfl⟩

/-! ## C5: delete fails closed -/

/-- C5: whenever `--confirm`/`--force` is absent or `--where` is absent or
empty, `cmdDelete` exits with code 1, leaves the manager state unchanged,
opens no connection and issues no SQL. -/
theorem cmdDelete_fails_closed (g : GlobMatcher) (eng : Engine) (m : ManagerState)
    (user : Option UserInfo) (args : List String)
    (h : (hasFlag args "confirm" = false ∧ hasFlag args "force" = false) ∨
      getFlag args "where" = "") :
    cmdDelete g eng m user args = ⟨1, m, []⟩ := by
  unfold cmdDelete
  dsimp only
  split
  next h1 => rfl
  next h1 =>
    split
    next h2 => rfl
    next h2 =>
      split
      next h3 => rfl
      next h3 =>
        split
        next h4 => rfl
        next h4 =>
          exfalso
          rcases h with ⟨hc, hf⟩ | hw
          · apply h3
            rw [hc, hf]
            rfl
          · exact h4 hw

/-- Witness for C5: `delete test users --where=id=1` without `--confirm`
exits 1 with no engine contact. -/
theorem cmdDelete_fails_closed_witness :
    (hasFlag ["test", "users", "--where=id=1"] "confirm" = false ∧
      hasFlag ["test", "users", "--where=id=1"] "force" = false) ∧
    cmdDelete noGlob ⟨fun _ _ => Option.none, fun _ _ => Except.ok ⟨0, 0, false⟩⟩
        ⟨[("/d/test.db", ⟨"/d/test.db", "test", "", 1, 2⟩)], ⟨Level.readWrite, [], [], []⟩, [], []⟩
        Option.none ["test", "users", "--where=id=1"] =
      ⟨1, ⟨[("/d/test.db", ⟨"/d/test.db", "test", "", 1, 2⟩)], ⟨Level.readWrite, [], [], []⟩, [], []⟩, []⟩ :=
  ⟨⟨by decide, by decide⟩,
    cmdDelete_fails_closed noGlob ⟨fun _ _ => Option.none, fun _ _ => Except.ok ⟨0, 0, false⟩⟩
      ⟨[("/d/test.db", ⟨"/d/test.db", "test", "", 1, 2⟩)], ⟨Level.readWrite, [], [], []⟩, [], []⟩
      Option.none ["test", "users", "--where=id=1"] (Or.inl ⟨by decide, by decide⟩)⟩

/-! ## C8: snapshot path uniqueness and alias-collision lookup -/

theorem mapKeys_mapInsert_some (m : Snapshot) (k : String) (v : DiscoveredDatabase)
    (h : (alookup m k).isSome = true) : mapKeys (mapInsert m k v) = mapKeys m := by
  unfold mapInsert
  rw [if_pos h]
  unfold mapKeys
  rw [List.map_map]
  apply List.map_congr_left
  intro e _
  by_cases he : Prod.fst e = k <;> simp [he, Function.comp]

theorem mapKeys_mapInsert_none (m : Snapshot) (k : String) (v : DiscoveredDatabase)
    (h : alookup m k = Option.none) : mapKeys (mapInsert m k v) = mapKeys m ++ [k] := by
  unfold mapInsert
  rw [if_neg (by simp [h])]
  unfold mapKeys
  simp

theorem keysNodup_mapInsert (m : Snapshot) (k : String) (v : DiscoveredDatabase)
    (hn : keysNodup m) : keysNodup (mapInsert m k v) := by
  cases h : alookup m k with
  | some w =>
      unfold keysNodup
      rw [mapKeys_mapInsert_some m k v (by simp [h])]
      exact hn
  | none =>
      unfold keysNodup
      rw [mapKeys_mapInsert_none m k v h]
      rw [List.nodup_append]
      refine ⟨hn, by simp, ?_⟩
      intro a ha hb
      rw [List.mem_singleton] at hb
      exact (alookup_eq_none m k).1 h (hb ▸ ha)

theorem keysNodup_foldl_mapInsert (found : List DiscoveredDatabase) :
    ∀ m : Snapshot, keysNodup m →
      keysNodup (found.foldl (fun m db => mapInsert m db.path db) m) := by
  induction found with
  | nil => intro m hn; exact hn
  | cons db rest ih =>
      intro m hn
      exact ih (mapInsert m db.path db) (keysNodup_mapInsert m db.path db hn)

/-- C8 (amended): in every scan-produced snapshot the absolute paths are
unique keys; lookup by a snapshot key always returns that key's entry (so
every colliding file stays reachable by its absolute path); and when the
argument is no path key, whatever database the alias scan returns bears the
looked-up alias and belongs to the snapshot — which one is a matter of the
map's iteration order, not of first-seen discovery order. -/
theorem snapshot_lookup_spec :
    (∀ found : List DiscoveredDatabase, keysNodup (buildSnapshot found)) ∧
    (∀ (m : Snapshot) (p : String) (db : DiscoveredDatabase),
      keysNodup m → (p, db) ∈ m → Discovery.getDatabase m p = Option.some db) ∧
    (∀ (m : Snapshot) (q : String) (db : DiscoveredDatabase),
      alookup m q = Option.none → Discovery.getDatabase m q = Option.some db →
      db.dbAlias = q ∧ db ∈ m.map Prod.snd) := by
  refine ⟨?_, ?_, ?_⟩
  · intro found
    exact keysNodup_foldl_mapInsert found [] (by simp [keysNodup, mapKeys])
  · intro m p db hn hmem
    unfold Discovery.getDatabase
    rw [mem_alookup_of_nodup m p db hn hmem]
  · intro m q db hnone hget
    unfold Discovery.getDatabase at hget
    rw [hnone] at hget
    dsimp only at hget
    have h1 := List.find?_some hget
    have h2 := List.mem_of_find?_eq_some hget
    exact ⟨of_decide_eq_true (by simpa using h1), h2⟩

/-- The first of two files that expand to the same alias `a`. -/
def c8db1 : DiscoveredDatabase := ⟨"/data/x/a.db", "a", "", 0, 0⟩

/-- The second, colliding file. -/
def c8db2 : DiscoveredDatabase := ⟨"/data/y/a.db", "a", "", 0, 0⟩

/-- One iteration order of the snapshot holding both colliding files. -/
def c8snap1 : Snapshot := [("/data/x/a.db", c8db1), ("/data/y/a.db", c8db2)]

/-- The same snapshot (same key/value set) in the other iteration order. -/
def c8snap2 : Snapshot := [("/data/y/a.db", c8db2), ("/data/x/a.db", c8db1)]

/-- C8 (counterexample): the two snapshots hold identical entries (they are
permutations of each other, i.e. the same Go map), yet looking up the
collided alias `a` returns different databases depending on the iteration
order — so alias lookup is not a deterministic first-seen resolution. -/
theorem alias_lookup_not_deterministic :
    c8snap1.Perm c8snap2 ∧ keysNodup c8snap1 ∧ keysNodup c8snap2 ∧
      wfSnapshot c8snap1 ∧ wfSnapshot c8snap2 ∧
      Discovery.getDatabase c8snap1 "a" = Option.some c8db1 ∧
      Discovery.getDatabase c8snap2 "a" = Option.some c8db2 ∧
      c8db1 ≠ c8db2 := by
  refine ⟨List.Perm.swap _ _ _, by decide, by decide, ?_, ?_, rfl, rfl, by decide⟩ <;>
    · intro e he
      rcases List.mem_cons.1 he with h | h
      · subst h; rfl
      · rcases List.mem_cons.1 h with h2 | h2
        · subst h2; rfl
        · simp at h2

/-- Witness for the amended C8 on concrete data: the scan map of the two
colliding files has unique path keys, each file is reachable by its path,
and the alias scan returns a database bearing alias `a`. -/
theorem snapshot_lookup_spec_witness :
    keysNodup (buildSnapshot [c8db1, c8db2]) ∧
      keysNodup c8snap1 ∧ ("/data/y/a.db", c8db2) ∈ c8snap1 ∧
      Discovery.getDatabase c8snap1 "/data/y/a.db" = Option.some c8db2 ∧
      alookup c8snap1 "a" = Option.none ∧
      Discovery.getDatabase c8snap1 "a" = Option.some c8db1 ∧
      c8db1.dbAlias = "a" ∧ c8db1 ∈ c8snap1.map Prod.snd :=
  ⟨snapshot_lookup_spec.1 [c8db1, c8db2],
    by decide, by decide,
    snapshot_lookup_spec.2.1 c8snap1 "/data/y/a.db" c8db2 (by decide) (by decide),
    by decide,
    rfl,
    (snapshot_lookup_spec.2.2 c8snap1 "a" c8db1 (by decide) rfl).1,
    (snapshot_lookup_spec.2.2 c8snap1 "a" c8db1 (by decide) rfl).2⟩

/-! ## C9: the scan delta is the symmetric difference -/

theorem computeAdded_mem (old new : Snapshot) (hwn : wfSnapshot new)
    (hnn : keysNodup new) (db : DiscoveredDatabase) :
    db ∈ computeAdded old new ↔
      (alookup new db.path = Option.some db ∧ alookup old db.path = Option.none) := by
  unfold computeAdded
  rw [List.mem_map]
  constructor
  · rintro ⟨e, hmem, heq⟩
    rw [List.mem_filter] at hmem
    obtain ⟨hin, hpred⟩ := hmem
    have hp : (Prod.snd e).path = Prod.fst e := hwn e hin
    have he : e = (db.path, db) := by
      obtain ⟨a, b⟩ := e
      simp only at heq hp
      rw [heq] at hp ⊢
      rw [hp]
    rw [he] at hin hpred
    refine ⟨mem_alookup_of_nodup new db.path db hnn hin, ?_⟩
    simpa [Option.isNone_iff_eq_none] using hpred
  · rintro ⟨hsome, hnone⟩
    refine ⟨(db.path, db), ?_, rfl⟩
    rw [List.mem_filter]
    exact ⟨alookup_some_mem new db.path db hsome, by simp [hnone]⟩

theorem mem_mapKeys_of_alookup_some {β : Type} (m : List (String × β)) (k : String)
    (v : β) (h : alookup m k = Option.some v) : k ∈ mapKeys m :=
  List.mem_map_of_mem Prod.fst (alookup_some_mem m k v h)

/-- C9: for successive snapshots, `added` is exactly the set of databases
whose path is a key of the new snapshot but not of the old, `removed`
exactly the reverse, and their paths together are exactly the symmetric
difference of the two snapshots' key sets. -/
theorem scan_delta_spec (old new : Snapshot)
    (hwo : wfSnapshot old) (hwn : wfSnapshot new)
    (hno : keysNodup old) (hnn : keysNodup new) :
    (∀ db, db ∈ computeAdded old new ↔
      (alookup new db.path = Option.some db ∧ alookup old db.path = Option.none)) ∧
    (∀ db, db ∈ computeRemoved old new ↔
      (alookup old db.path = Option.some db ∧ alookup new db.path = Option.none)) ∧
    (∀ p, ((∃ db ∈ computeAdded old new, db.path = p) ∨
        (∃ db ∈ computeRemoved old new, db.path = p)) ↔
      ((p ∈ mapKeys new ∧ p ∉ mapKeys old) ∨ (p ∈ mapKeys old ∧ p ∉ mapKeys new))) := by
  have hrem : ∀ db, db ∈ computeRemoved old new ↔
      (alookup old db.path = Option.some db ∧ alookup new db.path = Option.none) :=
    fun db => computeAdded_mem new old hwo hno db
  refine ⟨fun db => computeAdded_mem old new hwn hnn db, hrem, ?_⟩
  intro p
  constructor
  · rintro (⟨db, hdb, rfl⟩ | ⟨db, hdb, rfl⟩)
    · obtain ⟨hs, hn⟩ := (computeAdded_mem old new hwn hnn db).1 hdb
      exact Or.inl ⟨mem_mapKeys_of_alookup_some new db.path db hs,
        (alookup_eq_none old db.path).1 hn⟩
    · obtain ⟨hs, hn⟩ := (hrem db).1 hdb
      exact Or.inr ⟨mem_mapKeys_of_alookup_some old db.path db hs,
        (alookup_eq_none new db.path).1 hn⟩
  · rintro (⟨hin, hout⟩ | ⟨hin, hout⟩)
    · obtain ⟨db, hdb⟩ := exists_alookup_of_mem_keys new p hin
      have hdp : db.path = p := hwn (p, db) (alookup_some_mem new p db hdb)
      refine Or.inl ⟨db, (computeAdded_mem old new hwn hnn db).2
        ⟨by rw [hdp]; exact hdb, by rw [hdp]; exact (alookup_eq_none old p).2 hout⟩, hdp⟩
    · obtain ⟨db, hdb⟩ := exists_alookup_of_mem_keys old p hin
      have hdp : db.path = p := hwo (p, db) (alookup_some_mem old p db hdb)
      refine Or.inr ⟨db, (hrem db).2
        ⟨by rw [hdp]; exact hdb, by rw [hdp]; exact (alookup_eq_none new p).2 hout⟩, hdp⟩

/-- Old snapshot for the C9 witness: databases `a` and `b`. -/
def c9old : Snapshot :=
  [("/d/a.db", ⟨"/d/a.db", "a", "", 0, 0⟩), ("/d/b.db", ⟨"/d/b.db", "b", "", 0, 0⟩)]

/-- New snapshot for the C9 witness: databases `b` and `c`. -/
def c9new : Snapshot :=
  [("/d/b.db", ⟨"/d/b.db", "b", "", 0, 0⟩), ("/d/c.db", ⟨"/d/c.db", "c", "", 0, 0⟩)]

/-- The database added between the two C9 witness snapshots. -/
def c9dbC : DiscoveredDatabase := ⟨"/d/c.db", "c", "", 0, 0⟩

/-- Witness for C9 on concrete snapshots: old holds `a` and `b`, new holds
`b` and `c`; membership of `c` in `added` is characterised as claimed, and
concretely `added` is exactly `c` and `removed` exactly `a`. -/
theorem scan_delta_spec_witness :
    wfSnapshot c9old ∧ wfSnapshot c9new ∧ keysNodup c9old ∧ keysNodup c9new ∧
      (c9dbC ∈ computeAdded c9old c9new ↔
        (alookup c9new c9dbC.path = Option.some c9dbC ∧
          alookup c9old c9dbC.path = Option.none)) ∧
      computeAdded c9old c9new = [c9dbC] ∧
      computeRemoved c9old c9new = [⟨"/d/a.db", "a", "", 0, 0⟩] :=
  ⟨by decide, by decide, by decide, by decide,
    (scan_delta_spec c9old c9new (by decide) (by decide) (by decide) (by decide)).1 c9dbC,
    by decide, by decide⟩
